import Mathlib

/-!
Verification of the configuration-resolution and credential-lifecycle core of
matrix-cli (Go): environment-variable resolution, config merging, provider
configuration, default model selection, config persistence, OAuth token
expiry, and the provider builder cache.

Go maps are embedded as association lists (`List (key × value)`); map
assignment replaces the first binding of the key in place (appending when the
key is absent), mirroring Go map update on the unique-keyed maps the program
builds.  Well-formedness (`Nodup` keys), inherent to Go maps, appears as an
explicit hypothesis where a proof needs it.
-/

namespace MatrixCli

/-- Go `map[k] = v`: replace the first binding of `k`, else append. -/
def insertA {V : Type} (k : String) (v : V) : List (String × V) → List (String × V)
  | [] => [(k, v)]
  | (k', v') :: t => if k = k' then (k, v) :: t else (k', v') :: insertA k v t

/-- Go `m[k]` lookup (comma-ok form): first binding of `k`. -/
def lookupA {V : Type} (k : String) : List (String × V) → Option V
  | [] => none
  | (k', v') :: t => if k = k' then some v' else lookupA k t

/-- Go `delete(m, k)`. -/
def eraseA {V : Type} (k : String) (m : List (String × V)) : List (String × V) :=
  m.filter (fun e => !(e.1 == k))

/-- Keys of an association list. -/
def keysA {V : Type} (m : List (String × V)) : List String := m.map (·.1)

/-! ## Environment resolver (`internal/config/resolver.go`)

`varPattern = \$\{([a-zA-Z_][a-zA-Z0-9_]*)\}|\$([a-zA-Z_][a-zA-Z0-9_]*)` and
`ReplaceAllStringFunc` are embedded as a left-to-right scanner: at each `$`
the braced alternative is tried first, then the bare one, names taken
greedily; an unmatched `$` is emitted verbatim. -/

/-- Matches `[a-zA-Z_]`, the first character of a variable name. -/
def isVarStart (c : Char) : Bool := c.isAlpha || c == '_'

/-- Matches `[a-zA-Z0-9_]`, a continuation character of a variable name. -/
def isVarChar (c : Char) : Bool := c.isAlpha || c.isDigit || c == '_'

/-- Longest prefix of variable-name characters, and the remainder. -/
def takeName : List Char → List Char × List Char
  | [] => ([], [])
  | c :: t =>
    if isVarChar c then
      let p := takeName t
      (c :: p.1, p.2)
    else ([], c :: t)

theorem takeName_snd_length (l : List Char) : (takeName l).2.length ≤ l.length := by
  induction l with
  | nil => simp [takeName]
  | cons c t ih =>
    by_cases h : isVarChar c <;> simp [takeName, h]
    omega

/-- Try to match a variable reference right after a `$`.  Returns the
variable name, the consumed characters (after the `$`), and the rest.
The braced alternative of `varPattern` is tried first, then the bare one,
mirroring the regex's leftmost-first alternation. -/
def matchVar : List Char → Option (String × List Char × List Char)
  | [] => none
  | c :: r2 =>
    if c = '{' then
      if (r2.head?.map isVarStart).getD false then
        let p := takeName r2
        if p.2.head? = some '}' then some (String.mk p.1, '{' :: p.1 ++ ['}'], p.2.tail)
        else none
      else none
    else if isVarStart c then
      let p := takeName (c :: r2)
      some (String.mk p.1, p.1, p.2)
    else none

theorem matchVar_rest_length {l : List Char} {name : String} {consumed rest : List Char}
    (h : matchVar l = some (name, consumed, rest)) : rest.length ≤ l.length := by
  match l with
  | [] => simp [matchVar] at h
  | c :: r2 =>
    simp only [matchVar] at h
    split at h
    · split at h
      · split at h
        · simp only [Option.some.injEq, Prod.mk.injEq] at h
          obtain ⟨-, -, h3⟩ := h
          subst h3
          have h1 := takeName_snd_length r2
          have h2 : (takeName r2).2.tail.length = (takeName r2).2.length - 1 :=
            List.length_tail _
          simp only [List.length_cons]
          omega
        · exact absurd h (by simp)
      · exact absurd h (by simp)
    · split at h
      · simp only [Option.some.injEq, Prod.mk.injEq] at h
        obtain ⟨-, -, h3⟩ := h
        subst h3
        exact takeName_snd_length (c :: r2)
      · exact absurd h (by simp)

/-- The scan underlying `Resolver.Resolve`'s `ReplaceAllStringFunc` call:
returns the substituted output and the undefined names collected into `errs`
(one entry per undefined occurrence, in order; an undefined match is kept
verbatim in the output, as the Go callback returns `match`).  The `fuel`
argument only makes the recursion structural; `scanResolve` fixes it at the
input length, which the scan never exhausts. -/
def scanResolveF (env : List (String × String)) : Nat → List Char → List Char × List String
  | _, [] => ([], [])
  | 0, l => (l, [])
  | fuel + 1, c :: rest =>
    if c = '$' then
      match matchVar rest with
      | some (name, consumed, after) =>
        let next := scanResolveF env fuel after
        match List.lookup name env with
        | some v => (v.data ++ next.1, next.2)
        | none => ('$' :: consumed ++ next.1, name :: next.2)
      | none =>
        let next := scanResolveF env fuel rest
        (c :: next.1, next.2)
    else
      let next := scanResolveF env fuel rest
      (c :: next.1, next.2)

/-- The scan of `Resolver.Resolve`. -/
def scanResolve (env : List (String × String)) (l : List Char) : List Char × List String :=
  scanResolveF env l.length l

/-- The names of all `$NAME`/`${NAME}` references of a string, in occurrence
order, under the same matching discipline as the scan. -/
def referencedNamesF : Nat → List Char → List String
  | _, [] => []
  | 0, _ => []
  | fuel + 1, c :: rest =>
    if c = '$' then
      match matchVar rest with
      | some (name, _, after) => name :: referencedNamesF fuel after
      | none => referencedNamesF fuel rest
    else referencedNamesF fuel rest

/-- The referenced variable names of a string. -/
def referencedNames (l : List Char) : List String := referencedNamesF l.length l

theorem scanResolveF_fuel (env : List (String × String)) :
    ∀ f1 f2 (l : List Char), l.length ≤ f1 → l.length ≤ f2 →
      scanResolveF env f1 l = scanResolveF env f2 l := by
  intro f1
  induction f1 with
  | zero =>
    intro f2 l h1 _
    have hl : l = [] := by cases l <;> simp_all
    subst hl
    cases f2 <;> simp [scanResolveF]
  | succ f ih =>
    intro f2 l h1 h2
    cases l with
    | nil => cases f2 <;> simp [scanResolveF]
    | cons c rest =>
      cases f2 with
      | zero => simp at h2
      | succ f2' =>
        have hr : rest.length ≤ f := by simpa using h1
        have hr2 : rest.length ≤ f2' := by simpa using h2
        simp only [scanResolveF]
        by_cases hc : c = '$'
        · simp only [hc, if_true]
          cases hm : matchVar rest with
          | none =>
            dsimp only
            rw [ih f2' rest hr hr2]
          | some nca =>
            obtain ⟨name, consumed, after⟩ := nca
            dsimp only
            have ha := matchVar_rest_length hm
            rw [ih f2' after (le_trans ha hr) (le_trans ha hr2)]
        · simp only [if_neg hc]
          rw [ih f2' rest hr hr2]

theorem referencedNamesF_fuel :
    ∀ f1 f2 (l : List Char), l.length ≤ f1 → l.length ≤ f2 →
      referencedNamesF f1 l = referencedNamesF f2 l := by
  intro f1
  induction f1 with
  | zero =>
    intro f2 l h1 _
    have hl : l = [] := by cases l <;> simp_all
    subst hl
    cases f2 <;> simp [referencedNamesF]
  | succ f ih =>
    intro f2 l h1 h2
    cases l with
    | nil => cases f2 <;> simp [referencedNamesF]
    | cons c rest =>
      cases f2 with
      | zero => simp at h2
      | succ f2' =>
        have hr : rest.length ≤ f := by simpa using h1
        have hr2 : rest.length ≤ f2' := by simpa using h2
        simp only [referencedNamesF]
        by_cases hc : c = '$'
        · simp only [hc, if_true]
          cases hm : matchVar rest with
          | none =>
            dsimp only
            rw [ih f2' rest hr hr2]
          | some nca =>
            obtain ⟨name, consumed, after⟩ := nca
            dsimp only
            have ha := matchVar_rest_length hm
            rw [ih f2' after (le_trans ha hr) (le_trans ha hr2)]
        · simp only [if_neg hc]
          rw [ih f2' rest hr hr2]

theorem scanResolve_cons_dollar (env : List (String × String)) (t : List Char) :
    scanResolve env ('$' :: t) =
      match matchVar t with
      | some (name, consumed, after) =>
        match List.lookup name env with
        | some v => (v.data ++ (scanResolve env after).1, (scanResolve env after).2)
        | none => ('$' :: consumed ++ (scanResolve env after).1, name :: (scanResolve env after).2)
      | none => ('$' :: (scanResolve env t).1, (scanResolve env t).2) := by
  show scanResolveF env ('$' :: t).length ('$' :: t) = _
  simp only [List.length_cons, scanResolveF, if_true]
  cases hm : matchVar t with
  | none =>
    dsimp only
    simp only [scanResolve]
  | some nca =>
    obtain ⟨name, consumed, after⟩ := nca
    dsimp only
    have ha := matchVar_rest_length hm
    rw [scanResolveF_fuel env t.length after.length after ha le_rfl]
    simp only [scanResolve]

theorem scanResolve_cons_other (env : List (String × String)) {c : Char} (t : List Char)
    (hc : ¬ c = '$') :
    scanResolve env (c :: t) = (c :: (scanResolve env t).1, (scanResolve env t).2) := by
  show scanResolveF env (c :: t).length (c :: t) = _
  simp only [List.length_cons, scanResolveF, if_neg hc]
  simp only [scanResolve]

theorem referencedNames_cons_dollar (t : List Char) :
    referencedNames ('$' :: t) =
      match matchVar t with
      | some (name, _, after) => name :: referencedNames after
      | none => referencedNames t := by
  show referencedNamesF ('$' :: t).length ('$' :: t) = _
  simp only [List.length_cons, referencedNamesF, if_true]
  cases hm : matchVar t with
  | none =>
    dsimp only
    simp only [referencedNames]
  | some nca =>
    obtain ⟨name, consumed, after⟩ := nca
    dsimp only
    have ha := matchVar_rest_length hm
    rw [referencedNamesF_fuel t.length after.length after ha le_rfl]
    simp only [referencedNames]

theorem referencedNames_cons_other {c : Char} (t : List Char) (hc : ¬ c = '$') :
    referencedNames (c :: t) = referencedNames t := by
  show referencedNamesF (c :: t).length (c :: t) = _
  simp only [List.length_cons, referencedNamesF, if_neg hc]
  simp only [referencedNames]

/-- Embeds `Resolver.Resolve`.  `strings.Contains(value, "$")` is embedded as
membership of `'$'` in the string's characters. -/
def resolve (env : List (String × String)) (value : String) : Except String String :=
  if value.data.contains '$' then
    let p := scanResolve env value.data
    if p.2.isEmpty then .ok (String.mk p.1)
    else .error ("undefined environment variables: " ++ String.intercalate ", " p.2)
  else .ok value

/-- Embeds `Resolver.MustResolve`. -/
def mustResolve (env : List (String × String)) (value : String) : String :=
  match resolve env value with
  | .ok s => s
  | .error _ => ""

/-- The undefined variable references of a string under an environment:
exactly the `errs` list `Resolver.Resolve` collects. -/
def undefinedRefs (env : List (String × String)) (value : String) : List String :=
  (scanResolve env value.data).2

/-- The `errs` list collects precisely the referenced names whose lookup
fails, in occurrence order. -/
theorem scanResolve_snd_eq (env : List (String × String)) (l : List Char) :
    (scanResolve env l).2 =
      (referencedNames l).filter (fun n => (List.lookup n env).isNone) := by
  suffices h : ∀ fuel (l : List Char), (scanResolveF env fuel l).2 =
      (referencedNamesF fuel l).filter (fun n => (List.lookup n env).isNone) by
    exact h l.length l
  intro fuel
  induction fuel with
  | zero => intro l; cases l <;> simp [scanResolveF, referencedNamesF]
  | succ f ih =>
    intro l
    cases l with
    | nil => simp [scanResolveF, referencedNamesF]
    | cons c rest =>
      simp only [scanResolveF, referencedNamesF]
      by_cases hc : c = '$'
      · simp only [hc, if_true]
        cases hm : matchVar rest with
        | none => exact ih rest
        | some nca =>
          obtain ⟨name, consumed, after⟩ := nca
          cases hv : List.lookup name env with
          | some v => simp [hv, ih after]
          | none => simp [hv, ih after]
      · simp only [if_neg hc]
        exact ih rest

/-- A scan of a string without `$` matches nothing and copies the input. -/
theorem scanResolve_no_dollar (env : List (String × String)) (l : List Char)
    (h : ¬ '$' ∈ l) : scanResolve env l = (l, []) := by
  induction l with
  | nil => simp [scanResolve, scanResolveF]
  | cons c rest ih =>
    have hc : ¬ c = '$' := by
      intro hc; exact h (by simp [hc])
    have hrest : ¬ '$' ∈ rest := by
      intro hr; exact h (by simp [hr])
    rw [scanResolve_cons_other env rest hc, ih hrest]

/-- A string with a reference contains `$`. -/
theorem referencedNames_ne_nil_contains {l : List Char}
    (h : referencedNames l ≠ []) : '$' ∈ l := by
  by_contra hd
  have h1 := scanResolve_snd_eq [] l
  rw [scanResolve_no_dollar [] l hd] at h1
  rcases hr : referencedNames l with _ | ⟨n, t⟩
  · exact h hr
  · rw [hr] at h1
    simp [List.filter_cons] at h1

/-! ## Claim C3: resolution failure on undefined variables -/

/-- C3 (counterexample): on `"$X $X"` with an empty environment, `Resolve`
fails but the error enumerates the undefined variable `X` once per
occurrence — twice, not "exactly once" as the claim states. -/
theorem c3_counterexample :
    resolve [] "$X $X" = .error "undefined environment variables: X, X" ∧
    List.count "X" (undefinedRefs [] "$X $X") = 2 :=
  ⟨rfl, rfl⟩

/-- C3 (amended): for every input string with at least one `$NAME`/`${NAME}`
reference to a variable undefined in the resolver's environment, `Resolve`
fails, the error enumerates the undefined references in occurrence order
(so it names every undefined variable at least once, one mention per
occurrence, not just the first), and no partially substituted result is
returned to the caller. -/
theorem c3_resolve_fails_on_undefined (env : List (String × String)) (s : String)
    (h : ∃ n, n ∈ referencedNames s.data ∧ List.lookup n env = none) :
    resolve env s =
      .error ("undefined environment variables: " ++
        String.intercalate ", "
          ((referencedNames s.data).filter (fun n => (List.lookup n env).isNone))) ∧
    (∀ n, n ∈ referencedNames s.data → List.lookup n env = none →
      n ∈ undefinedRefs env s) ∧
    ∀ r, resolve env s ≠ .ok r := by
  obtain ⟨n, hn, hlook⟩ := h
  have hrefs : referencedNames s.data ≠ [] := by
    intro hnil; rw [hnil] at hn; exact absurd hn (by simp)
  have hdollar : '$' ∈ s.data := referencedNames_ne_nil_contains hrefs
  have hcontains : s.data.contains '$' = true := by
    simpa [List.contains] using hdollar
  have hsnd := scanResolve_snd_eq env s.data
  have hmem : n ∈ (scanResolve env s.data).2 := by
    rw [hsnd]
    exact List.mem_filter.2 ⟨hn, by simp [hlook]⟩
  have hne : (scanResolve env s.data).2.isEmpty = false := by
    cases hsc : (scanResolve env s.data).2 with
    | nil => rw [hsc] at hmem; exact absurd hmem (by simp)
    | cons a t => simp
  have herr : resolve env s =
      .error ("undefined environment variables: " ++
        String.intercalate ", "
          ((referencedNames s.data).filter (fun n => (List.lookup n env).isNone))) := by
    rw [resolve]
    rw [hsnd] at hne
    simp only [hcontains, if_true, hsnd, hne, Bool.false_eq_true, if_false]
  refine ⟨herr, ?_, ?_⟩
  · intro m hm hlm
    rw [undefinedRefs, hsnd]
    exact List.mem_filter.2 ⟨hm, by simp [hlm]⟩
  · intro r hok
    rw [herr] at hok
    exact absurd hok (by simp)

/-- C3 witness: the amended theorem at `"$UNDEFINED1 and $UNDEFINED2"` with an
empty environment. -/
theorem c3_resolve_fails_on_undefined_witness :
    resolve [] "$UNDEFINED1 and $UNDEFINED2" =
      .error ("undefined environment variables: " ++
        String.intercalate ", "
          ((referencedNames "$UNDEFINED1 and $UNDEFINED2".data).filter
            (fun n => (List.lookup n ([] : List (String × String))).isNone))) :=
  (c3_resolve_fails_on_undefined [] "$UNDEFINED1 and $UNDEFINED2"
    ⟨"UNDEFINED1", by decide⟩).1

/-! ## Data model (`internal/config/config.go`, `internal/oauth/token.go`)

`catwalk` structs (an external dependency) are restricted to the fields the
configuration core reads; `SelectedModel`'s optional sampling parameters
(temperature, penalties, …), which no modelled operation inspects, are
omitted. -/

/-- Embeds `catwalk.Model`: id and display name. -/
structure CatwalkModel where
  ID : String := ""
  Name : String := ""
  deriving DecidableEq, Repr

/-- Embeds `catwalk.Provider`, the metadata descriptor. -/
structure CatwalkProvider where
  ID : String := ""
  Name : String := ""
  «Type» : String := ""
  APIEndpoint : String := ""
  DefaultLargeModelID : String := ""
  DefaultSmallModelID : String := ""
  Models : List CatwalkModel := []
  deriving DecidableEq, Repr

/-- Modelled from the spec: `internal/oauth/token.go` is not under the source
tree (only its test and the feature documentation are).  Fields follow the
documented struct: access token, refresh token, `expires_in` seconds, and an
absolute `expires_at` Unix timestamp. -/
structure Token where
  AccessToken : String := ""
  RefreshToken : String := ""
  ExpiresIn : Int := 0
  ExpiresAt : Int := 0
  deriving DecidableEq, Repr

/-- Modelled from the spec: on issuance the absolute expiry is "now +
expires-in seconds".  `now` (Go `time.Now().Unix()`) is an explicit
argument. -/
def Token.SetExpiresAt (now : Int) (t : Token) : Token :=
  { t with ExpiresAt := now + t.ExpiresIn }

/-- Modelled from the spec: a token counts as expired already when the
remaining time has dropped to 10% or less of the original `expires-in`
duration (a zero `expires-in` yields a zero buffer). -/
def Token.IsExpired (now : Int) (t : Token) : Bool :=
  t.ExpiresAt - now ≤ t.ExpiresIn / 10

/-- Embeds `config.SelectedModel` (tier selection). -/
structure SelectedModel where
  Model : String := ""
  Provider : String := ""
  Think : Bool := false
  deriving DecidableEq, Repr

/-- Embeds `config.ProviderConfig`.  `OAuthToken` is the token field `save.go`
persists alongside the API key. -/
structure ProviderConfig where
  ExtraHeaders : Option (List (String × String)) := none
  Models : List CatwalkModel := []
  ID : String := ""
  Name : String := ""
  «Type» : String := ""
  BaseURL : String := ""
  APIKey : String := ""
  OAuthToken : Option Token := none
  Disable : Bool := false
  deriving DecidableEq, Repr

/-- Embeds `config.Options`. -/
structure Options where
  ContextPaths : List String := []
  DataDir : String := ""
  Debug : Bool := false
  deriving DecidableEq, Repr

/-- Embeds `config.Config`; `knownProviders` is the transient catwalk metadata. -/
structure Config where
  Models : List (String × SelectedModel) := []
  Providers : List (String × ProviderConfig) := []
  Options : Option MatrixCli.Options := none
  knownProviders : List CatwalkProvider := []
  deriving DecidableEq, Repr

/-- Embeds `config.SelectedModelTypeLarge`. -/
def SelectedModelTypeLarge : String := "large"

/-- Embeds `config.SelectedModelTypeSmall`. -/
def SelectedModelTypeSmall : String := "small"

/-- Embeds `config.NewConfig`. -/
def NewConfig : Config :=
  { Models := [], Providers := [], Options := some {} }

/-- Embeds `Config.GetModel`. -/
def Config.GetModel (c : Config) (providerID modelID : String) : Option CatwalkModel :=
  match lookupA providerID c.Providers with
  | none => none
  | some provider => provider.Models.find? (fun m => m.ID == modelID)

/-! ## Loader & merger (`internal/config/load.go`)

File reading, upward project search, the XDG default data directory, and the
catwalk fetch are I/O; the pipeline below starts from their results (the
merged config, the fetched metadata list, and the environment snapshot). -/

/-- Go `for k, v := range src { dst[k] = v }`. -/
def insertAllA {V : Type} (dst src : List (String × V)) : List (String × V) :=
  src.foldl (fun acc e => insertA e.1 e.2 acc) dst

/-- The options part of `mergeConfig`: project wins if non-empty/true, a nil
destination block is normalized to an empty one. -/
def mergeOptions (dstO srcO : Option Options) : Option Options :=
  match srcO with
  | none => dstO
  | some so =>
    let d := dstO.getD {}
    let d := if so.ContextPaths.length > 0 then { d with ContextPaths := so.ContextPaths } else d
    let d := if so.DataDir ≠ "" then { d with DataDir := so.DataDir } else d
    let d := if so.Debug then { d with Debug := true } else d
    some d

/-- Embeds `mergeConfig`: merges `src` into `dst` (`src` takes precedence). -/
def mergeConfig (dst src : Config) : Config :=
  { dst with
    Models := insertAllA dst.Models src.Models
    Providers := insertAllA dst.Providers src.Providers
    Options := mergeOptions dst.Options src.Options }

/-- The model-list merge of `configureProviders`: user models verbatim, then
catwalk models whose id is not among the user models' ids. -/
def mergeModels (userModels metaModels : List CatwalkModel) : List CatwalkModel :=
  if userModels.isEmpty then metaModels
  else
    let existingIDs := userModels.map (·.ID)
    metaModels.foldl (fun acc m => if m.ID ∈ existingIDs then acc else acc ++ [m]) userModels

/-- One iteration of the `configureProviders` loop, for the metadata entry
`p`: skip providers without a user entry; drop the provider if its non-empty
API key fails to resolve; otherwise resolve the base URL (defaulting to the
metadata endpoint), fill id/name/type from metadata, merge model lists, and
ensure an extra-headers map exists. -/
def configureProvider (resolver : List (String × String)) (cfg : Config)
    (p : CatwalkProvider) : Config :=
  match lookupA p.ID cfg.Providers with
  | none => cfg
  | some userConfig =>
    let step1 : Except String ProviderConfig :=
      if userConfig.APIKey ≠ "" then
        match resolve resolver userConfig.APIKey with
        | .error e => .error e
        | .ok resolved => .ok { userConfig with APIKey := resolved }
      else .ok userConfig
    match step1 with
    | .error _ => { cfg with Providers := eraseA p.ID cfg.Providers }
    | .ok u0 =>
      let u1 := if u0.BaseURL ≠ "" then
          match resolve resolver u0.BaseURL with
          | .ok r => { u0 with BaseURL := r }
          | .error _ => u0
        else { u0 with BaseURL := p.APIEndpoint }
      let u2 := { u1 with ID := p.ID }
      let u3 := if u2.Name = "" then { u2 with Name := p.Name } else u2
      let u4 := if u3.«Type» = "" then { u3 with «Type» := p.«Type» } else u3
      let u5 := { u4 with Models := mergeModels u4.Models p.Models }
      let u6 := if u5.ExtraHeaders = none then { u5 with ExtraHeaders := some [] } else u5
      { cfg with Providers := insertA p.ID u6 cfg.Providers }

/-- Embeds `configureProviders`: one `configureProvider` pass per known provider. -/
def configureProviders (resolver : List (String × String)) (cfg : Config) : Config :=
  cfg.knownProviders.foldl (configureProvider resolver) cfg

/-- The provider scan of `configureDefaultModels`: first enabled provider
with a user entry and non-empty API key sets the tiers from its declared
default model ids; the loop stops at the first provider that yields at least
one tier assignment. -/
def pickDefaults : List CatwalkProvider → Config → Config
  | [], cfg => cfg
  | p :: rest, cfg =>
    match lookupA p.ID cfg.Providers with
    | none => pickDefaults rest cfg
    | some providerCfg =>
      if providerCfg.Disable then pickDefaults rest cfg
      else if providerCfg.APIKey = "" then pickDefaults rest cfg
      else
        let lm : SelectedModel := { Model := p.DefaultLargeModelID, Provider := p.ID }
        let sm : SelectedModel := { Model := p.DefaultSmallModelID, Provider := p.ID }
        let cfg1 := if p.DefaultLargeModelID ≠ "" then
            { cfg with Models := insertA SelectedModelTypeLarge lm cfg.Models }
          else cfg
        let cfg2 := if p.DefaultSmallModelID ≠ "" then
            { cfg1 with Models := insertA SelectedModelTypeSmall sm cfg1.Models }
          else cfg1
        if cfg2.Models.isEmpty then pickDefaults rest cfg2 else cfg2

/-- The loop of `validateModels`: first violation found, if any. -/
def validateTiers (cfg : Config) : List (String × SelectedModel) → Option String
  | [] => none
  | (tier, model) :: rest =>
    match lookupA model.Provider cfg.Providers with
    | none => some ("tier " ++ tier ++ ": provider \"" ++ model.Provider ++ "\" not configured")
    | some provider =>
      if provider.Disable then
        some ("tier " ++ tier ++ ": provider \"" ++ model.Provider ++ "\" is disabled")
      else validateTiers cfg rest

/-- Embeds `validateModels`. -/
def validateModels (cfg : Config) : Except String Unit :=
  match validateTiers cfg cfg.Models with
  | some e => .error e
  | none => .ok ()

/-- Embeds `configureDefaultModels`. -/
def configureDefaultModels (cfg : Config) : Except String Config :=
  if ¬ cfg.Models.isEmpty then
    match validateModels cfg with
    | .error e => .error e
    | .ok _ => .ok cfg
  else
    let cfg2 := pickDefaults cfg.knownProviders cfg
    if cfg2.Models.isEmpty then .error "no providers configured with valid API keys"
    else .ok cfg2

/-- The pure core shared by `Load` and `LoadFromFile` after file I/O:
attach the fetched metadata (`SetKnownProviders`), run
`configureProviders`, then `configureDefaultModels`, wrapping its error as
`Load` does. -/
def loadWith (cfg : Config) (known : List CatwalkProvider)
    (resolver : List (String × String)) : Except String Config :=
  let cfg1 := { cfg with knownProviders := known }
  let cfg2 := configureProviders resolver cfg1
  match configureDefaultModels cfg2 with
  | .error e => .error ("configuring models: " ++ e)
  | .ok c => .ok c

/-! ## Persistence (`internal/config/save.go`) -/

/-- Embeds `config.SaveProviderConfig`: the persisted slice of a provider entry. -/
structure SaveProviderConfig where
  OAuthToken : Option Token := none
  APIKey : String := ""
  deriving DecidableEq, Repr

/-- Embeds `config.SaveConfig`. -/
structure SaveConfig where
  Models : List (String × SelectedModel) := []
  Providers : List (String × SaveProviderConfig) := []
  Options : Option MatrixCli.Options := none
  deriving DecidableEq, Repr

/-- The provider filter of `SaveToFile`: a fresh map keeps exactly the
entries with a non-empty API key or an OAuth token, projected to the
persisted fields (the API key string — template or not — is copied
verbatim). -/
def saveProviders : List (String × ProviderConfig) → List (String × SaveProviderConfig)
  | [] => []
  | (id, p) :: rest =>
    if p.APIKey ≠ "" ∨ p.OAuthToken ≠ none then
      (id, { OAuthToken := p.OAuthToken, APIKey := p.APIKey }) :: saveProviders rest
    else saveProviders rest

/-- The pure part of `SaveToFile` (directory creation, JSON marshalling and
the file write are I/O): the `SaveConfig` value that gets marshalled. -/
def saveConfigOf (cfg : Config) : SaveConfig :=
  { Models := cfg.Models, Providers := saveProviders cfg.Providers, Options := cfg.Options }

/-! ## Provider builder (`internal/provider/tier.go`)

The external `fantasy` clients are opaque; a handle is recorded as the
constructor arguments the builder passes to `openai.New` / `anthropic.New`
(an empty api key or base URL stands for an omitted option), and
`provider.LanguageModel(ctx, id)` as the pair of the handle and the id. -/

/-- Value of `openai.Name`. -/
def openaiName : String := "openai"

/-- Value of `anthropic.Name`. -/
def anthropicName : String := "anthropic"

/-- Value of `catwalk.TypeOpenAICompat`. -/
def typeOpenAICompat : String := "openai-compat"

/-- A built fantasy provider handle. -/
inductive FantasyProvider where
  | openaiP (baseURL apiKey : String) (headers : List (String × String))
  | anthropicP (baseURL apiKey : String) (headers : List (String × String))
  deriving DecidableEq, Repr

/-- A language model handle obtained from a provider. -/
structure LangModel where
  provider : FantasyProvider
  modelID : String := ""
  deriving DecidableEq, Repr

/-- Embeds `provider.Model`. -/
structure Model where
  Model : LangModel
  CatwalkCfg : CatwalkModel := {}
  ModelCfg : SelectedModel := {}
  deriving DecidableEq, Repr

/-- Embeds `provider.Builder`. -/
structure Builder where
  cfg : Config
  cache : List (String × FantasyProvider) := []
  debug : Bool := false
  deriving DecidableEq, Repr

/-- Embeds `provider.NewBuilder`. -/
def NewBuilder (cfg : Config) : Builder :=
  { cfg := cfg, cache := [],
    debug := match cfg.Options with | some o => o.Debug | none => false }

/-- Embeds `Builder.buildOpenAIProvider` (the option-list construction collapses
into the recorded handle). -/
def buildOpenAIProvider (baseURL apiKey : String) (headers : List (String × String)) :
    Except String FantasyProvider :=
  .ok (.openaiP baseURL apiKey headers)

/-- Embeds `Builder.buildAnthropicProvider`: an API key with a literal `Bearer `
prefix goes verbatim into an `Authorization` header instead of the API-key
option. -/
def buildAnthropicProvider (baseURL apiKey : String) (headers : List (String × String)) :
    Except String FantasyProvider :=
  if apiKey.startsWith "Bearer " then
    .ok (.anthropicP baseURL "" (insertA "Authorization" apiKey headers))
  else
    .ok (.anthropicP baseURL apiKey headers)

/-- Embeds `Builder.buildProvider`: clone headers, apply the anthropic thinking
header, and dispatch on the provider type tag. -/
def buildProvider (providerCfg : ProviderConfig) (modelCfg : SelectedModel) :
    Except String FantasyProvider :=
  let headers := providerCfg.ExtraHeaders.getD []
  let headers := if providerCfg.«Type» = anthropicName ∧ modelCfg.Think then
      match lookupA "anthropic-beta" headers with
      | some v => insertA "anthropic-beta" (v ++ ",interleaved-thinking-2025-05-14") headers
      | none => insertA "anthropic-beta" "interleaved-thinking-2025-05-14" headers
    else headers
  if providerCfg.«Type» = openaiName ∨ providerCfg.«Type» = typeOpenAICompat then
    buildOpenAIProvider providerCfg.BaseURL providerCfg.APIKey headers
  else if providerCfg.«Type» = anthropicName then
    buildAnthropicProvider providerCfg.BaseURL providerCfg.APIKey headers
  else
    .error ("unsupported provider type: \"" ++ providerCfg.«Type» ++ "\"")

/-- Embeds `Builder.getOrBuildProvider`: cached handle for the provider id, or
build-and-store. -/
def getOrBuildProvider (b : Builder) (providerCfg : ProviderConfig)
    (modelCfg : SelectedModel) : Except String (FantasyProvider × Builder) :=
  match lookupA providerCfg.ID b.cache with
  | some p => .ok (p, b)
  | none =>
    match buildProvider providerCfg modelCfg with
    | .error e => .error e
    | .ok p => .ok (p, { b with cache := insertA providerCfg.ID p b.cache })

/-- Embeds `Builder.buildModel` (the external `provider.LanguageModel` call is
modelled as always yielding a handle). -/
def buildModel (b : Builder) (modelCfg : SelectedModel) : Except String (Model × Builder) :=
  match lookupA modelCfg.Provider b.cfg.Providers with
  | none => .error ("provider \"" ++ modelCfg.Provider ++ "\" not configured")
  | some providerCfg =>
    match getOrBuildProvider b providerCfg modelCfg with
    | .error e => .error e
    | .ok (provider, b1) =>
      let lm : LangModel := { provider := provider, modelID := modelCfg.Model }
      let catwalkModel := (b.cfg.GetModel modelCfg.Provider modelCfg.Model).getD {}
      .ok ({ Model := lm, CatwalkCfg := catwalkModel, ModelCfg := modelCfg }, b1)

/-- Embeds `Builder.BuildModels`. -/
def buildModels (b : Builder) : Except String (Model × Model × Builder) :=
  match lookupA SelectedModelTypeLarge b.cfg.Models with
  | none => .error "large model not configured"
  | some largeCfg =>
    match buildModel b largeCfg with
    | .error e => .error ("building large model: " ++ e)
    | .ok (large, b1) =>
      match lookupA SelectedModelTypeSmall b.cfg.Models with
      | none => .ok (large, large, b1)
      | some smallCfg =>
        match buildModel b1 smallCfg with
        | .error e => .error ("building small model: " ++ e)
        | .ok (small, b2) => .ok (large, small, b2)

/-! ## Association-list lemmas -/

theorem lookupA_insertA_self {V : Type} (k : String) (v : V) (m : List (String × V)) :
    lookupA k (insertA k v m) = some v := by
  induction m with
  | nil => simp [insertA, lookupA]
  | cons e t ih =>
    obtain ⟨k', v'⟩ := e
    by_cases h : k = k' <;> simp [insertA, lookupA, h, ih]

theorem lookupA_insertA_ne {V : Type} {k j : String} (v : V) (m : List (String × V))
    (h : ¬ k = j) : lookupA k (insertA j v m) = lookupA k m := by
  induction m with
  | nil => simp [insertA, lookupA, h]
  | cons e t ih =>
    obtain ⟨k', v'⟩ := e
    by_cases hj : j = k'
    · subst hj
      simp [insertA, lookupA, h]
    · by_cases hk : k = k' <;> simp [insertA, lookupA, hj, hk, ih]

theorem insertA_self_of_lookup {V : Type} {k : String} {v : V} {m : List (String × V)}
    (h : lookupA k m = some v) : insertA k v m = m := by
  induction m with
  | nil => simp [lookupA] at h
  | cons e t ih =>
    obtain ⟨k', v'⟩ := e
    by_cases hk : k = k'
    · subst hk
      have h' : v' = v := by simpa [lookupA] using h
      subst h'
      simp [insertA]
    · simp only [lookupA, if_neg hk] at h
      simp [insertA, hk, ih h]

theorem lookupA_insertAllA_notmem {V : Type} {k : String} {s : List (String × V)}
    (d : List (String × V)) (h : ¬ k ∈ keysA s) :
    lookupA k (insertAllA d s) = lookupA k d := by
  induction s generalizing d with
  | nil => simp [insertAllA]
  | cons e t ih =>
    obtain ⟨k0, v0⟩ := e
    have hne : ¬ k = k0 := by
      intro hk; exact h (by simp [keysA, hk])
    have ht : ¬ k ∈ keysA t := by
      intro hk; exact h (by simp [keysA] at hk ⊢; right; exact hk)
    show lookupA k (insertAllA (insertA k0 v0 d) t) = lookupA k d
    rw [ih (insertA k0 v0 d) ht, lookupA_insertA_ne v0 d hne]

theorem lookupA_insertAllA_mem {V : Type} {k : String} {v : V} {s : List (String × V)}
    (d : List (String × V)) (hnd : (keysA s).Nodup) (hm : (k, v) ∈ s) :
    lookupA k (insertAllA d s) = some v := by
  induction s generalizing d with
  | nil => exact absurd hm (by simp)
  | cons e t ih =>
    obtain ⟨k0, v0⟩ := e
    have hnd' : (keysA t).Nodup := by
      simpa [keysA] using hnd.of_cons
    rcases List.mem_cons.1 hm with heq | hmt
    · obtain ⟨hk, hv⟩ := Prod.mk.inj_iff.1 heq
      subst hk; subst hv
      have hknot : ¬ k ∈ keysA t := by
        have h0 : (k :: keysA t).Nodup := by simpa [keysA] using hnd
        exact (List.nodup_cons.1 h0).1
      show lookupA k (insertAllA (insertA k v d) t) = some v
      rw [lookupA_insertAllA_notmem (insertA k v d) hknot, lookupA_insertA_self]
    · show lookupA k (insertAllA (insertA k0 v0 d) t) = some v
      exact ih (insertA k0 v0 d) hnd' hmt

theorem insertAllA_of_lookup {V : Type} {s : List (String × V)} (d : List (String × V))
    (h : ∀ e, e ∈ s → lookupA e.1 d = some e.2) : insertAllA d s = d := by
  induction s generalizing d with
  | nil => rfl
  | cons e t ih =>
    obtain ⟨k0, v0⟩ := e
    show insertAllA (insertA k0 v0 d) t = d
    have hd : insertA k0 v0 d = d :=
      insertA_self_of_lookup (h (k0, v0) (by simp))
    rw [hd]
    exact ih d (fun e he => h e (by simp [he]))

theorem insertAllA_idem {V : Type} {s : List (String × V)} (d : List (String × V))
    (hnd : (keysA s).Nodup) : insertAllA (insertAllA d s) s = insertAllA d s :=
  insertAllA_of_lookup (insertAllA d s)
    (fun e he => lookupA_insertAllA_mem d hnd (by cases e; exact he))

theorem mergeOptions_idem (dstO srcO : Option Options) :
    mergeOptions (mergeOptions dstO srcO) srcO = mergeOptions dstO srcO := by
  cases srcO with
  | none => rfl
  | some so =>
    by_cases c1 : so.ContextPaths.length > 0 <;>
      by_cases c2 : so.DataDir ≠ "" <;>
        by_cases c3 : so.Debug <;>
          simp [mergeOptions, c1, c2, c3]

/-! ## Claim C9: merge idempotence -/

/-- C9: merging the same project config into a global config twice yields
the same result as merging it once (the key sets of a Go map are duplicate
free, which appears as the two `Nodup` hypotheses). -/
theorem c9_mergeConfig_idem (dst src : Config)
    (h1 : (keysA src.Models).Nodup) (h2 : (keysA src.Providers).Nodup) :
    mergeConfig (mergeConfig dst src) src = mergeConfig dst src := by
  simp only [mergeConfig, Config.mk.injEq, and_true]
  exact ⟨insertAllA_idem dst.Models h1, insertAllA_idem dst.Providers h2,
    mergeOptions_idem dst.Options src.Options⟩

/-- C9 witness inputs: a global config. -/
def mergeIdemGlobalEx : Config :=
  { Models := [("large", { Model := "gpt-4o", Provider := "openai" })],
    Providers := [("openai", { ID := "openai", APIKey := "sk-1" })],
    Options := some { Debug := true } }

/-- C9 witness inputs: a project config merged into the global one. -/
def mergeIdemProjectEx : Config :=
  { Models := [("large", { Model := "claude-opus-4", Provider := "anthropic" }),
               ("small", { Model := "claude-haiku", Provider := "anthropic" })],
    Providers := [("anthropic", { ID := "anthropic", APIKey := "$ANTHROPIC_API_KEY" })],
    Options := some { DataDir := "/data" } }

/-- C9 witness: idempotence at the concrete pair above. -/
theorem c9_mergeConfig_idem_witness :
    mergeConfig (mergeConfig mergeIdemGlobalEx mergeIdemProjectEx) mergeIdemProjectEx =
      mergeConfig mergeIdemGlobalEx mergeIdemProjectEx :=
  c9_mergeConfig_idem mergeIdemGlobalEx mergeIdemProjectEx (by decide) (by decide)

/-! ## Claim C8: model-list merge -/

theorem foldl_append_if_filter (ids : List String) (ms : List CatwalkModel) :
    ∀ acc : List CatwalkModel,
      ms.foldl (fun acc m => if m.ID ∈ ids then acc else acc ++ [m]) acc =
        acc ++ ms.filter (fun m => !(decide (m.ID ∈ ids))) := by
  induction ms with
  | nil => intro acc; simp
  | cons m t ih =>
    intro acc
    by_cases h : m.ID ∈ ids
    · simp [List.foldl_cons, h, ih]
    · simp [List.foldl_cons, h, ih (acc ++ [m])]

/-- C8: for every user model list and metadata model list, the merge keeps
the user models verbatim and appends exactly the metadata models whose id is
not among the user models; in particular metadata `[A, B]` merged into a
user list `[A']` (same id as `A`, different name) yields exactly the two
entries `[A', B]`, with `A` carrying the user's name. -/
theorem c8_mergeModels_characterization :
    (∀ (userModels metaModels : List CatwalkModel),
      mergeModels userModels metaModels =
        userModels ++ metaModels.filter
          (fun m => !(userModels.any (fun um => um.ID == m.ID)))) ∧
    mergeModels [{ ID := "a", Name := "Custom" }]
        [{ ID := "a", Name := "Default A" }, { ID := "b", Name := "B" }] =
      [{ ID := "a", Name := "Custom" }, { ID := "b", Name := "B" }] := by
  have hgen : ∀ (userModels metaModels : List CatwalkModel),
      mergeModels userModels metaModels =
        userModels ++ metaModels.filter
          (fun m => !(userModels.any (fun um => um.ID == m.ID))) := by
    intro u ms
    rw [mergeModels]
    by_cases hu : u.isEmpty
    · have : u = [] := by cases u <;> simp_all
      subst this
      simp
    · simp only [hu, Bool.false_eq_true, if_false]
      rw [foldl_append_if_filter (u.map (·.ID)) ms u]
      congr 1
      apply List.filter_congr
      intro m _
      congr 1
      rcases h2 : u.any fun um => um.ID == m.ID with _ | _
      · simp only [List.any_eq_false, beq_iff_eq] at h2
        have hnm : ¬ m.ID ∈ u.map (·.ID) := by
          simp only [List.mem_map]
          rintro ⟨um, hum, hid⟩
          exact h2 um hum hid
        simp [hnm]
      · simp only [List.any_eq_true, beq_iff_eq] at h2
        obtain ⟨um, hum, hid⟩ := h2
        have hm2 : m.ID ∈ u.map (·.ID) := List.mem_map.2 ⟨um, hum, hid⟩
        simp [hm2]
  exact ⟨hgen, by rw [hgen]; rfl⟩

/-! ## Claim C4: default model selection -/

/-- The provider condition `configureDefaultModels` effectively selects on:
a user entry exists, is enabled, has a non-empty (resolved) API key, and
declares at least one default model id (a keyed provider with no default
ids yields no assignment and the scan moves on). -/
def qualifiesWithDefaults (cfg : Config) (p : CatwalkProvider) : Bool :=
  match lookupA p.ID cfg.Providers with
  | none => false
  | some pc =>
    (!pc.Disable) && (pc.APIKey != "") &&
      ((p.DefaultLargeModelID != "") || (p.DefaultSmallModelID != ""))

/-- The tier map assigned from a picked provider's declared default ids. -/
def defaultTiersFor (p : CatwalkProvider) : List (String × SelectedModel) :=
  if p.DefaultLargeModelID ≠ "" then
    if p.DefaultSmallModelID ≠ "" then
      [(SelectedModelTypeLarge, { Model := p.DefaultLargeModelID, Provider := p.ID }),
       (SelectedModelTypeSmall, { Model := p.DefaultSmallModelID, Provider := p.ID })]
    else
      [(SelectedModelTypeLarge, { Model := p.DefaultLargeModelID, Provider := p.ID })]
  else
    if p.DefaultSmallModelID ≠ "" then
      [(SelectedModelTypeSmall, { Model := p.DefaultSmallModelID, Provider := p.ID })]
    else []

theorem pickDefaults_spec (ps : List CatwalkProvider) (cfg : Config)
    (h : cfg.Models = []) :
    pickDefaults ps cfg =
      match ps.find? (qualifiesWithDefaults cfg) with
      | some p => { cfg with Models := defaultTiersFor p }
      | none => cfg := by
  induction ps with
  | nil => simp [pickDefaults]
  | cons p rest ih =>
    rw [pickDefaults]
    cases hlook : lookupA p.ID cfg.Providers with
    | none =>
      have hq : qualifiesWithDefaults cfg p = false := by
        simp [qualifiesWithDefaults, hlook]
      rw [List.find?_cons_of_neg _ (by simp [hq]), ih]
    | some pc =>
      by_cases hdis : pc.Disable
      · have hq : qualifiesWithDefaults cfg p = false := by
          simp [qualifiesWithDefaults, hlook, hdis]
        simp only [hdis, if_true]
        rw [List.find?_cons_of_neg _ (by simp [hq]), ih]
      · by_cases hkey : pc.APIKey = ""
        · have hq : qualifiesWithDefaults cfg p = false := by
            simp [qualifiesWithDefaults, hlook, hdis, hkey]
          simp only [hdis, Bool.false_eq_true, if_false, hkey, if_true]
          rw [List.find?_cons_of_neg _ (by simp [hq]), ih]
        · simp only [hdis, Bool.false_eq_true, if_false, hkey, if_neg hkey]
          by_cases hl : p.DefaultLargeModelID ≠ ""
          · by_cases hs : p.DefaultSmallModelID ≠ ""
            · have hq : qualifiesWithDefaults cfg p = true := by
                simp [qualifiesWithDefaults, hlook, hdis, hkey, hl]
              rw [List.find?_cons_of_pos _ (by simp [hq])]
              simp [hl, hs, h, insertA, defaultTiersFor, SelectedModelTypeLarge,
                SelectedModelTypeSmall]
            · have hq : qualifiesWithDefaults cfg p = true := by
                simp [qualifiesWithDefaults, hlook, hdis, hkey, hl]
              rw [List.find?_cons_of_pos _ (by simp [hq])]
              simp [hl, hs, h, insertA, defaultTiersFor]
          · by_cases hs : p.DefaultSmallModelID ≠ ""
            · have hq : qualifiesWithDefaults cfg p = true := by
                simp [qualifiesWithDefaults, hlook, hdis, hkey, hs]
              rw [List.find?_cons_of_pos _ (by simp [hq])]
              simp [hl, hs, h, insertA, defaultTiersFor]
            · have hl' : p.DefaultLargeModelID = "" := by revert hl; simp
              have hs' : p.DefaultSmallModelID = "" := by revert hs; simp
              have hq : qualifiesWithDefaults cfg p = false := by
                simp [qualifiesWithDefaults, hlook, hl', hs']
              rw [List.find?_cons_of_neg _ (by simp [hq])]
              simp only [hl', hs']
              simp [h, ih]

theorem defaultTiersFor_ne_nil {cfg : Config} {p : CatwalkProvider}
    (hq : qualifiesWithDefaults cfg p = true) : ¬ (defaultTiersFor p).isEmpty = true := by
  rw [qualifiesWithDefaults] at hq
  cases hlook : lookupA p.ID cfg.Providers with
  | none => rw [hlook] at hq; simp at hq
  | some pc =>
    rw [hlook] at hq
    simp only [Bool.and_eq_true, Bool.or_eq_true, bne_iff_ne] at hq
    obtain ⟨-, hids⟩ := hq
    rw [defaultTiersFor]
    by_cases hl : p.DefaultLargeModelID ≠ ""
    · by_cases hs : p.DefaultSmallModelID ≠ "" <;> simp [hl, hs]
    · by_cases hs : p.DefaultSmallModelID ≠ ""
      · simp [hl, hs]
      · exfalso
        rcases hids with h1 | h2
        · exact hl h1
        · exact hs h2

/-- C4: on a config with no tiers configured, `configureDefaultModels` scans
the metadata-known providers in their given order; the first one with a user
entry that is enabled, has a non-empty resolved API key, and declares at
least one default model id determines the result: the `large` tier is set to
its declared default large model id (if any) and the `small` tier to its
declared default small model id (if any).  If no provider qualifies, it
fails with the error "no providers configured with valid API keys". -/
theorem c4_configureDefaultModels (cfg : Config) (h : cfg.Models = []) :
    (∀ p, cfg.knownProviders.find? (qualifiesWithDefaults cfg) = some p →
      configureDefaultModels cfg = .ok { cfg with Models := defaultTiersFor p }) ∧
    (cfg.knownProviders.find? (qualifiesWithDefaults cfg) = none →
      configureDefaultModels cfg = .error "no providers configured with valid API keys") := by
  have hpd := pickDefaults_spec cfg.knownProviders cfg h
  constructor
  · intro p hf
    rw [hf] at hpd
    have hq : qualifiesWithDefaults cfg p = true := List.find?_some hf
    rw [configureDefaultModels]
    simp only [h, List.isEmpty_nil, not_true, if_false]
    rw [hpd]
    simp [defaultTiersFor_ne_nil hq]
  · intro hf
    rw [hf] at hpd
    rw [configureDefaultModels]
    simp only [h, List.isEmpty_nil, not_true, if_false]
    rw [hpd]
    simp [h]

/-- C4 witness inputs: one enabled, keyed provider advertising both default
model ids, no tiers configured. -/
def c4CfgEx : Config :=
  { Models := [],
    Providers := [("anthropic", { ID := "anthropic", APIKey := "test-key" })],
    knownProviders := [{ ID := "anthropic", DefaultLargeModelID := "claude-opus-4",
                          DefaultSmallModelID := "claude-haiku" }] }

/-- C4 witness: both tiers are set to the provider's declared defaults. -/
theorem c4_configureDefaultModels_witness :
    configureDefaultModels c4CfgEx =
      .ok { c4CfgEx with Models :=
        [("large", { Model := "claude-opus-4", Provider := "anthropic" }),
         ("small", { Model := "claude-haiku", Provider := "anthropic" })] } :=
  (c4_configureDefaultModels c4CfgEx rfl).1
    { ID := "anthropic", DefaultLargeModelID := "claude-opus-4",
      DefaultSmallModelID := "claude-haiku" } rfl

/-! ## Claims C1 and C2: dropping providers with unresolvable keys -/

theorem lookupA_eraseA_self {V : Type} (k : String) (m : List (String × V)) :
    lookupA k (eraseA k m) = none := by
  induction m with
  | nil => rfl
  | cons e t ih =>
    obtain ⟨k', v'⟩ := e
    by_cases h : k' = k
    · subst h
      simpa [eraseA] using ih
    · have hne : ¬ k = k' := fun hk => h hk.symm
      simp [eraseA, lookupA, h, hne] at ih ⊢
      exact ih

theorem lookupA_eraseA_ne {V : Type} {i k : String} (m : List (String × V))
    (h : ¬ i = k) : lookupA i (eraseA k m) = lookupA i m := by
  induction m with
  | nil => rfl
  | cons e t ih =>
    obtain ⟨k', v'⟩ := e
    by_cases hk : k' = k
    · subst hk
      simpa [eraseA, lookupA, h] using ih
    · by_cases hik : i = k'
      · subst hik
        simp [eraseA, lookupA, hk]
      · simpa [eraseA, lookupA, hk, hik] using ih

/-- A step of `configureProvider` for `p` only touches the entry with key `p.ID`. -/
theorem lookupA_configureProvider_ne (resolver : List (String × String))
    (cfg : Config) (p : CatwalkProvider) {i : String} (h : ¬ i = p.ID) :
    lookupA i (configureProvider resolver cfg p).Providers = lookupA i cfg.Providers := by
  rw [configureProvider]
  cases hlook : lookupA p.ID cfg.Providers with
  | none => rfl
  | some userConfig =>
    dsimp only
    split
    · exact lookupA_eraseA_ne cfg.Providers h
    · exact lookupA_insertA_ne _ cfg.Providers h

/-- A provider whose current entry has a non-empty key that fails to resolve
is deleted by its `configureProvider` step. -/
theorem configureProvider_drops {resolver : List (String × String)} {cfg : Config}
    {p : CatwalkProvider} {pc : ProviderConfig}
    (hlook : lookupA p.ID cfg.Providers = some pc)
    (hkey : pc.APIKey ≠ "") (hres : ∃ e, resolve resolver pc.APIKey = .error e) :
    lookupA p.ID (configureProvider resolver cfg p).Providers = none := by
  obtain ⟨e, he⟩ := hres
  rw [configureProvider, hlook]
  simp only [hkey, if_true, he]
  simpa [he, hkey] using lookupA_eraseA_self p.ID cfg.Providers

/-- Absence of an entry is preserved by any `configureProvider` step. -/
theorem configureProvider_none {resolver : List (String × String)} {cfg : Config}
    {p : CatwalkProvider} {i : String} (h : lookupA i cfg.Providers = none) :
    lookupA i (configureProvider resolver cfg p).Providers = none := by
  by_cases hip : i = p.ID
  · subst hip
    rw [configureProvider, h]
    exact h
  · rw [lookupA_configureProvider_ne resolver cfg p hip]
    exact h

/-- Absence of an entry is preserved by the whole `configureProviders` fold. -/
theorem configureProviders_fold_none (resolver : List (String × String))
    (ps : List CatwalkProvider) (cfg : Config) (i : String)
    (h : lookupA i cfg.Providers = none) :
    lookupA i (ps.foldl (configureProvider resolver) cfg).Providers = none := by
  induction ps generalizing cfg with
  | nil => exact h
  | cons p rest ih => exact ih _ (configureProvider_none h)

/-- Over the `configureProviders` fold, an entry that is absent or holds a
non-empty unresolvable key ends up absent once some listed provider carries
its id. -/
theorem configureProviders_fold_drops (resolver : List (String × String))
    (ps : List CatwalkProvider) (cfg : Config) (i : String)
    (hI : lookupA i cfg.Providers = none ∨
      ∃ pc, lookupA i cfg.Providers = some pc ∧ pc.APIKey ≠ "" ∧
        ∃ e, resolve resolver pc.APIKey = .error e)
    (hmem : ∃ p, p ∈ ps ∧ p.ID = i) :
    lookupA i (ps.foldl (configureProvider resolver) cfg).Providers = none := by
  induction ps generalizing cfg with
  | nil =>
    obtain ⟨p, hp, -⟩ := hmem
    exact absurd hp (by simp)
  | cons p rest ih =>
    by_cases hpi : p.ID = i
    · subst hpi
      have hstep : lookupA p.ID (configureProvider resolver cfg p).Providers = none := by
        rcases hI with hnone | ⟨pc, hlook, hkey, hres⟩
        · exact configureProvider_none hnone
        · exact configureProvider_drops hlook hkey hres
      exact configureProviders_fold_none resolver rest _ _ hstep
    · have hipn : ¬ i = p.ID := fun hi => hpi hi.symm
      have hkeep := lookupA_configureProvider_ne resolver cfg p hipn
      refine ih _ ?_ ?_
      · rw [hkeep]; exact hI
      · obtain ⟨q, hq, hqid⟩ := hmem
        rcases List.mem_cons.1 hq with rfl | hqt
        · exact absurd hqid hpi
        · exact ⟨q, hqt, hqid⟩

/-- The scan `pickDefaults` never changes the provider map. -/
theorem pickDefaults_providers (ps : List CatwalkProvider) (cfg : Config) :
    (pickDefaults ps cfg).Providers = cfg.Providers := by
  induction ps generalizing cfg with
  | nil => rfl
  | cons p rest ih =>
    rw [pickDefaults]
    cases hlook : lookupA p.ID cfg.Providers with
    | none => exact ih cfg
    | some pc =>
      dsimp only
      by_cases hdis : pc.Disable
      · simp only [hdis, if_true]; exact ih cfg
      · by_cases hkey : pc.APIKey = ""
        · simp only [hdis, Bool.false_eq_true, if_false, hkey, if_true]; exact ih cfg
        · simp only [hdis, Bool.false_eq_true, if_false, if_neg hkey]
          have hp2 : ∀ cfg2 : Config, cfg2.Providers = cfg.Providers →
              (if cfg2.Models.isEmpty = true then pickDefaults rest cfg2
               else cfg2).Providers = cfg.Providers := by
            intro cfg2 h2
            split
            · rw [ih cfg2]; exact h2
            · exact h2
          apply hp2
          split <;> split <;> rfl

/-- The step `configureDefaultModels` never changes the provider map of a successful
result. -/
theorem configureDefaultModels_providers {cfg r : Config}
    (h : configureDefaultModels cfg = .ok r) : r.Providers = cfg.Providers := by
  rw [configureDefaultModels] at h
  by_cases hm : cfg.Models.isEmpty
  · rw [if_neg (fun hc => hc hm)] at h
    dsimp only at h
    split at h
    · exact absurd h (by simp)
    · have hpd := pickDefaults_providers cfg.knownProviders cfg
      simp only [Except.ok.injEq] at h
      rw [← h]
      exact hpd
  · rw [if_pos hm] at h
    split at h
    · exact absurd h (by simp)
    · simp only [Except.ok.injEq] at h
      rw [← h]

/-- A string whose scan references an undefined variable makes `Resolve`
fail. -/
theorem resolve_error_of_undefined_ref {env : List (String × String)} {s : String}
    (h : ∃ n, n ∈ referencedNames s.data ∧ List.lookup n env = none) :
    ∃ e, resolve env s = .error e := by
  obtain ⟨n, hn, hlook⟩ := h
  have hrefs : referencedNames s.data ≠ [] := by
    intro hnil; rw [hnil] at hn; exact absurd hn (by simp)
  have hdollar : '$' ∈ s.data := referencedNames_ne_nil_contains hrefs
  have hcontains : s.data.contains '$' = true := by
    simpa [List.contains] using hdollar
  have hsnd := scanResolve_snd_eq env s.data
  have hmem : n ∈ (scanResolve env s.data).2 := by
    rw [hsnd]
    exact List.mem_filter.2 ⟨hn, by simp [hlook]⟩
  have hne : (scanResolve env s.data).2.isEmpty = false := by
    cases hsc : (scanResolve env s.data).2 with
    | nil => rw [hsc] at hmem; exact absurd hmem (by simp)
    | cons a t => simp
  refine ⟨"undefined environment variables: " ++
    String.intercalate ", " (scanResolve env s.data).2, ?_⟩
  rw [resolve]
  simp only [hcontains, if_true, hne, Bool.false_eq_true, if_false]

/-- A string with a variable reference is non-empty. -/
theorem ne_empty_of_referenced {s : String} (h : referencedNames s.data ≠ []) :
    s ≠ "" := by
  intro hs
  subst hs
  exact h rfl

/-- The drop behaviour shared by C1 and C2: a metadata-known provider whose
user entry holds a non-empty unresolvable API key is removed by
`configureProviders` and absent from any successfully loaded config. -/
theorem loadWith_drops (cfg : Config) (known : List CatwalkProvider)
    (resolver : List (String × String)) (p : CatwalkProvider) (pc : ProviderConfig)
    (hp : p ∈ known)
    (hlook : lookupA p.ID cfg.Providers = some pc)
    (hkey : pc.APIKey ≠ "")
    (hres : ∃ e, resolve resolver pc.APIKey = .error e) :
    lookupA p.ID (configureProviders resolver { cfg with knownProviders := known }).Providers = none ∧
    ∀ r, loadWith cfg known resolver = .ok r → lookupA p.ID r.Providers = none := by
  have hdrop : lookupA p.ID
      (configureProviders resolver { cfg with knownProviders := known }).Providers = none := by
    rw [configureProviders]
    exact configureProviders_fold_drops resolver known _ p.ID
      (Or.inr ⟨pc, hlook, hkey, hres⟩) ⟨p, hp, rfl⟩
  refine ⟨hdrop, ?_⟩
  intro r hr
  rw [loadWith] at hr
  split at hr
  · exact absurd hr (by simp)
  · rename_i c hcd
    simp only [Except.ok.injEq] at hr
    subst hr
    rw [configureDefaultModels_providers hcd]
    exact hdrop

/-! ### Claim C1 -/

/-- C1 counterexample inputs: a tier-complete config with a resolvable
anthropic key and a second, metadata-unknown provider entry carrying neither
an API key nor an OAuth token. -/
def c1CfgEx : Config :=
  { Models := [("large", { Model := "claude-opus-4", Provider := "anthropic" })],
    Providers := [("anthropic", { ID := "anthropic", APIKey := "$K" }),
                  ("dead", { ID := "dead" })] }

/-- C1 counterexample metadata: only anthropic is metadata-known. -/
def c1KnownEx : List CatwalkProvider :=
  [{ ID := "anthropic", Name := "Anthropic", «Type» := "anthropic",
     APIEndpoint := "https://api.anthropic.com/v1" }]

/-- C1 (counterexample): `Load` succeeds on this input, yet the entry
`"dead"` remains in `Config.Providers` with an empty API key and no OAuth
token — so not every surviving entry carries a credential. -/
theorem c1_counterexample :
    ∃ r, loadWith c1CfgEx c1KnownEx [("K", "sk-ant-1")] = .ok r ∧
      lookupA "dead" r.Providers = some { ID := "dead" } ∧
      ({ ID := "dead" } : ProviderConfig).APIKey = "" ∧
      ({ ID := "dead" } : ProviderConfig).OAuthToken = none :=
  ⟨_, rfl, rfl, rfl, rfl⟩

/-- C1 (amended): after every successful `Load`, every metadata-known
provider whose user entry held a non-empty API key that fails to resolve is
absent from `Config.Providers` (dropped entirely rather than kept with an
empty credential); entries whose API key was empty and carry no OAuth token
may however survive the load, as the counterexample shows. -/
theorem c1_no_unresolvable_key_survives (cfg : Config) (known : List CatwalkProvider)
    (resolver : List (String × String)) (p : CatwalkProvider) (pc : ProviderConfig)
    (r : Config)
    (hp : p ∈ known)
    (hlook : lookupA p.ID cfg.Providers = some pc)
    (hkey : pc.APIKey ≠ "")
    (hres : ∃ e, resolve resolver pc.APIKey = .error e)
    (hload : loadWith cfg known resolver = .ok r) :
    lookupA p.ID r.Providers = none :=
  (loadWith_drops cfg known resolver p pc hp hlook hkey hres).2 r hload

/-- C1 witness inputs: anthropic resolvable and tier-configured, openai with
an unresolvable key. -/
def c1WitnessCfg : Config :=
  { Models := [("large", { Model := "claude-opus-4", Provider := "anthropic" })],
    Providers := [("anthropic", { ID := "anthropic", APIKey := "$K" }),
                  ("openai", { ID := "openai", APIKey := "$MISSING" })] }

/-- C1 witness metadata. -/
def c1WitnessKnown : List CatwalkProvider :=
  [{ ID := "anthropic", Name := "Anthropic", «Type» := "anthropic" },
   { ID := "openai", Name := "OpenAI", «Type» := "openai" }]

/-- C1 witness: the load succeeds and openai is gone. -/
theorem c1_no_unresolvable_key_survives_witness :
    ∃ r, loadWith c1WitnessCfg c1WitnessKnown [("K", "sk-1")] = .ok r ∧
      lookupA "openai" r.Providers = none := by
  refine ⟨_, rfl, ?_⟩
  exact c1_no_unresolvable_key_survives c1WitnessCfg c1WitnessKnown [("K", "sk-1")]
    { ID := "openai", Name := "OpenAI", «Type» := "openai" } { ID := "openai", APIKey := "$MISSING" }
    _ (by simp [c1WitnessKnown]) rfl (by decide) ⟨_, rfl⟩ rfl

/-! ### Claim C2 -/

/-- C2 counterexample inputs: a single metadata-known provider whose API key
references an undefined environment variable, and no tiers configured. -/
def c2CfgEx : Config :=
  { Models := [], Providers := [("openai", { APIKey := "$UNDEFINED_API_KEY" })] }

/-- C2 (counterexample): the provider's key references an undefined
variable, and the overall load does NOT succeed — it fails in the
default-model step because no usable provider remains. -/
theorem c2_counterexample :
    referencedNames "$UNDEFINED_API_KEY".data = ["UNDEFINED_API_KEY"] ∧
    loadWith c2CfgEx [{ ID := "openai", Name := "OpenAI" }] [] =
      .error "configuring models: no providers configured with valid API keys" :=
  ⟨rfl, rfl⟩

/-- C2 (amended): for every metadata-known provider with a user entry whose
api_key references at least one undefined environment variable, the
provider-configuration step removes that provider from `Config.Providers`
(the resolution failure is non-fatal to that step), and any load that does
succeed yields a config without that provider; the load as a whole can still
fail afterwards — in the default-model step — if no usable provider
remains, as the counterexample shows. -/
theorem c2_undefined_ref_drops_provider (cfg : Config) (known : List CatwalkProvider)
    (resolver : List (String × String)) (p : CatwalkProvider) (pc : ProviderConfig)
    (hp : p ∈ known)
    (hlook : lookupA p.ID cfg.Providers = some pc)
    (href : ∃ n, n ∈ referencedNames pc.APIKey.data ∧ List.lookup n resolver = none) :
    lookupA p.ID (configureProviders resolver { cfg with knownProviders := known }).Providers = none ∧
    ∀ r, loadWith cfg known resolver = .ok r → lookupA p.ID r.Providers = none := by
  have hrefs : referencedNames pc.APIKey.data ≠ [] := by
    obtain ⟨n, hn, -⟩ := href
    intro hnil; rw [hnil] at hn; exact absurd hn (by simp)
  exact loadWith_drops cfg known resolver p pc hp hlook
    (ne_empty_of_referenced hrefs) (resolve_error_of_undefined_ref href)

/-- C2 witness: the amended theorem at the counterexample input — the
provider is removed by the provider-configuration step. -/
theorem c2_undefined_ref_drops_provider_witness :
    lookupA "openai" (configureProviders []
      { c2CfgEx with knownProviders := [{ ID := "openai", Name := "OpenAI" }] }).Providers = none :=
  (c2_undefined_ref_drops_provider c2CfgEx [{ ID := "openai", Name := "OpenAI" }] []
    { ID := "openai", Name := "OpenAI" } { APIKey := "$UNDEFINED_API_KEY" }
    (by simp) rfl ⟨"UNDEFINED_API_KEY", by decide⟩).1

/-! ## Claim C5: persistence filter -/

theorem lookupA_saveProviders_notmem {m : List (String × ProviderConfig)} {i : String}
    (h : ¬ i ∈ keysA m) : lookupA i (saveProviders m) = none := by
  induction m with
  | nil => rfl
  | cons e t ih =>
    obtain ⟨k, p⟩ := e
    have hik : ¬ i = k := fun hk => h (by simp [keysA, hk])
    have ht : ¬ i ∈ keysA t := fun hk => h (by simp [keysA] at hk ⊢; right; exact hk)
    rw [saveProviders]
    split
    · simp only [lookupA, if_neg hik]
      exact ih ht
    · exact ih ht

theorem lookupA_saveProviders {m : List (String × ProviderConfig)} {i : String}
    (hnd : (keysA m).Nodup) :
    lookupA i (saveProviders m) =
      (lookupA i m).bind (fun p =>
        if p.APIKey ≠ "" ∨ p.OAuthToken ≠ none then
          some { OAuthToken := p.OAuthToken, APIKey := p.APIKey }
        else none) := by
  induction m with
  | nil => rfl
  | cons e t ih =>
    obtain ⟨k, p⟩ := e
    have h0 : (k :: keysA t).Nodup := by simpa [keysA] using hnd
    have hknot : ¬ k ∈ keysA t := (List.nodup_cons.1 h0).1
    have hndt : (keysA t).Nodup := (List.nodup_cons.1 h0).2
    by_cases hik : i = k
    · subst hik
      rw [saveProviders]
      split
      · rename_i hkeep
        simp [lookupA, hkeep]
      · rename_i hkeep
        simp only [lookupA, if_pos rfl]
        rw [lookupA_saveProviders_notmem hknot]
        simp [hkeep]
    · rw [saveProviders]
      split
      · simp only [lookupA, if_neg hik]
        exact ih hndt
      · simp only [lookupA, if_neg hik]
        exact ih hndt

/-- C5: `SaveToFile` persists a provider entry iff its API key is non-empty
or it holds an OAuth token, and what it writes for the API key is exactly the
stored string — a `$VAR` template is persisted verbatim, never a resolved
value (the save path applies no resolution). -/
theorem c5_saveToFile_persistence (cfg : Config) (i : String)
    (hnd : (keysA cfg.Providers).Nodup) :
    ((∃ e, lookupA i (saveConfigOf cfg).Providers = some e) ↔
      (∃ p, lookupA i cfg.Providers = some p ∧ (p.APIKey ≠ "" ∨ p.OAuthToken ≠ none))) ∧
    (∀ p, lookupA i cfg.Providers = some p → (p.APIKey ≠ "" ∨ p.OAuthToken ≠ none) →
      lookupA i (saveConfigOf cfg).Providers =
        some { OAuthToken := p.OAuthToken, APIKey := p.APIKey }) := by
  have hchar := lookupA_saveProviders (m := cfg.Providers) (i := i) hnd
  constructor
  · constructor
    · rintro ⟨e, he⟩
      rw [saveConfigOf] at he
      dsimp only at he
      rw [hchar] at he
      cases hl : lookupA i cfg.Providers with
      | none => rw [hl] at he; exact absurd he (by simp)
      | some p =>
        rw [hl] at he
        dsimp only [Option.bind] at he
        refine ⟨p, rfl, ?_⟩
        by_contra hcred
        rw [if_neg hcred] at he
        exact absurd he (by simp)
    · rintro ⟨p, hp, hcred⟩
      refine ⟨{ OAuthToken := p.OAuthToken, APIKey := p.APIKey }, ?_⟩
      show lookupA i (saveProviders cfg.Providers) = _
      rw [hchar, hp]
      simp [hcred]
  · intro p hp hcred
    show lookupA i (saveProviders cfg.Providers) = _
    rw [hchar, hp]
    simp [hcred]

/-- C5 witness inputs: one provider with an API key, one with only an OAuth
token, one with neither. -/
def c5CfgEx : Config :=
  { Providers := [("with-key", { ID := "with-key", APIKey := "$OPENAI_API_KEY" }),
                  ("with-oauth", { ID := "with-oauth",
                                   OAuthToken := some { AccessToken := "oauth-token" } }),
                  ("empty", { ID := "empty" })] }

/-- C5 witness: the keyed provider is persisted with its template verbatim,
the token-only provider is persisted, the credential-less one is not. -/
theorem c5_saveToFile_persistence_witness :
    lookupA "with-key" (saveConfigOf c5CfgEx).Providers =
      some { OAuthToken := none, APIKey := "$OPENAI_API_KEY" } ∧
    lookupA "with-oauth" (saveConfigOf c5CfgEx).Providers =
      some { OAuthToken := some { AccessToken := "oauth-token" }, APIKey := "" } ∧
    lookupA "empty" (saveConfigOf c5CfgEx).Providers = none :=
  ⟨(c5_saveToFile_persistence c5CfgEx "with-key" (by decide)).2 _ rfl (by decide),
   (c5_saveToFile_persistence c5CfgEx "with-oauth" (by decide)).2 _ rfl (by decide),
   rfl⟩

/-! ## Claim C6: token expiry buffer -/

/-- C6 (spec-modelled): with the absolute expiry computed at issuance as now
plus `ExpiresIn` seconds, `IsExpired` reports the token expired exactly when
the remaining time is 10% or less of `ExpiresIn`; with `ExpiresIn = 3600` a
token created 0 seconds ago is not expired while one with ≤ 360 seconds
remaining is; with `ExpiresIn = 0` the buffer is zero, so the token is never
proactively flagged expired before `ExpiresAt`. -/
theorem c6_token_expiry :
    (∀ (t : Token) (now : Int), 0 ≤ t.ExpiresIn →
      (Token.IsExpired now t = true ↔ 10 * (t.ExpiresAt - now) ≤ t.ExpiresIn)) ∧
    (∀ now : Int, Token.IsExpired now
      (Token.SetExpiresAt now
        { AccessToken := "a", RefreshToken := "r", ExpiresIn := 3600 }) = false) ∧
    (∀ (t : Token) (now : Int), t.ExpiresIn = 3600 → t.ExpiresAt - now ≤ 360 →
      Token.IsExpired now t = true) ∧
    (∀ (t : Token) (now : Int), t.ExpiresIn = 0 → now < t.ExpiresAt →
      Token.IsExpired now t = false) := by
  refine ⟨?_, ?_, ?_, ?_⟩
  · intro t now h
    rw [Token.IsExpired]
    constructor
    · intro hd
      have := of_decide_eq_true hd
      omega
    · intro h10
      exact decide_eq_true (by omega)
  · intro now
    rw [Token.IsExpired, Token.SetExpiresAt]
    dsimp only
    have h360 : (3600 : Int) / 10 = 360 := by decide
    rw [h360]
    exact decide_eq_false (by omega)
  · intro t now h3600 hrem
    rw [Token.IsExpired]
    exact decide_eq_true (by omega)
  · intro t now h0 hlt
    rw [Token.IsExpired]
    exact decide_eq_false (by omega)

/-- C6 witness: concrete instances of the three hypothesis-bearing clauses. -/
theorem c6_token_expiry_witness :
    (Token.IsExpired 0 { ExpiresIn := 3600, ExpiresAt := 3600 } = true ↔
      10 * ((3600 : Int) - 0) ≤ 3600) ∧
    Token.IsExpired 0 { ExpiresIn := 3600, ExpiresAt := 360 } = true ∧
    Token.IsExpired 0 { ExpiresIn := 0, ExpiresAt := 100 } = false :=
  ⟨c6_token_expiry.1 { ExpiresIn := 3600, ExpiresAt := 3600 } 0 (by decide),
   c6_token_expiry.2.2.1 { ExpiresIn := 3600, ExpiresAt := 360 } 0 rfl (by decide),
   c6_token_expiry.2.2.2 { ExpiresIn := 0, ExpiresAt := 100 } 0 rfl (by decide)⟩

/-! ## Claim C7: tier fallback in `BuildModels` -/

/-- C7: `BuildModels` fails with "large model not configured" when the
`large` tier is absent; when the `large` tier is configured, the `small`
tier is absent, and the large model builds successfully, the call does not
fail and returns the already-built large model as the small model, so the
two returned models' `ModelCfg.Model` coincide. -/
theorem c7_buildModels :
    (∀ b : Builder, lookupA SelectedModelTypeLarge b.cfg.Models = none →
      buildModels b = .error "large model not configured") ∧
    (∀ (b : Builder) (mc : SelectedModel) (lm : Model) (b1 : Builder),
      lookupA SelectedModelTypeLarge b.cfg.Models = some mc →
      lookupA SelectedModelTypeSmall b.cfg.Models = none →
      buildModel b mc = .ok (lm, b1) →
      buildModels b = .ok (lm, lm, b1) ∧
        ∀ lg sm b2, buildModels b = .ok (lg, sm, b2) →
          sm.ModelCfg.Model = lg.ModelCfg.Model) := by
  constructor
  · intro b hl
    rw [buildModels, hl]
  · intro b mc lm b1 hl hs hbm
    have hres : buildModels b = .ok (lm, lm, b1) := by
      rw [buildModels, hl]
      dsimp only
      rw [hbm, hs]
    refine ⟨hres, ?_⟩
    intro lg sm b2 h2
    rw [hres] at h2
    simp only [Except.ok.injEq, Prod.mk.injEq] at h2
    obtain ⟨h2l, h2s, -⟩ := h2
    rw [← h2l, ← h2s]

/-- C7 witness inputs: only the `large` tier configured, on an
openai-typed provider. -/
def c7BuilderEx : Builder :=
  NewBuilder
    { Models := [("large", { Model := "gpt-4o", Provider := "openai" })],
      Providers := [("openai", { ID := "openai", «Type» := "openai", APIKey := "sk-test" })] }

/-- The model the C7 witness builder produces for the large tier. -/
def c7LmEx : Model :=
  { Model := { provider := .openaiP "" "sk-test" [], modelID := "gpt-4o" },
    CatwalkCfg := {},
    ModelCfg := { Model := "gpt-4o", Provider := "openai" } }

/-- The builder state after the C7 witness's large build. -/
def c7B1Ex : Builder :=
  { c7BuilderEx with cache := [("openai", .openaiP "" "sk-test" [])] }

/-- C7 witness: the missing-large failure, and the small-falls-back-to-large
result at the concrete builder. -/
theorem c7_buildModels_witness :
    buildModels (NewBuilder {}) = .error "large model not configured" ∧
    buildModel c7BuilderEx { Model := "gpt-4o", Provider := "openai" } = .ok (c7LmEx, c7B1Ex) ∧
    buildModels c7BuilderEx = .ok (c7LmEx, c7LmEx, c7B1Ex) :=
  ⟨c7_buildModels.1 (NewBuilder {}) rfl, rfl,
   (c7_buildModels.2 c7BuilderEx { Model := "gpt-4o", Provider := "openai" } c7LmEx c7B1Ex
     rfl rfl rfl).1⟩

/-! ## Claim C10: the builder cache is keyed only by provider id -/

/-- C10: `getOrBuildProvider` returns a cached handle for the provider id
whenever one exists, ignoring the requesting model's configuration entirely;
hence once a handle has been built and stored (from the first requesting
model — including any per-model header adjustment such as the anthropic
thinking header), every later call for the same provider id returns exactly
that handle and leaves the builder unchanged, whatever the second model's
configuration. -/
theorem c10_provider_cache (b : Builder) (pcfg : ProviderConfig) :
    (∀ (mcfg : SelectedModel) (p : FantasyProvider),
      lookupA pcfg.ID b.cache = some p →
      getOrBuildProvider b pcfg mcfg = .ok (p, b)) ∧
    (∀ (m1 m2 : SelectedModel) (p : FantasyProvider) (b1 : Builder),
      getOrBuildProvider b pcfg m1 = .ok (p, b1) →
      getOrBuildProvider b1 pcfg m2 = .ok (p, b1)) := by
  constructor
  · intro mcfg p hc
    rw [getOrBuildProvider, hc]
  · intro m1 m2 p b1 hfirst
    rw [getOrBuildProvider] at hfirst
    cases hc : lookupA pcfg.ID b.cache with
    | some q =>
      rw [hc] at hfirst
      simp only [Except.ok.injEq, Prod.mk.injEq] at hfirst
      obtain ⟨hq, hb⟩ := hfirst
      subst hq; subst hb
      rw [getOrBuildProvider, hc]
    | none =>
      rw [hc] at hfirst
      cases hbp : buildProvider pcfg m1 with
      | error e => rw [hbp] at hfirst; exact absurd hfirst (by simp)
      | ok q =>
        rw [hbp] at hfirst
        simp only [Except.ok.injEq, Prod.mk.injEq] at hfirst
        obtain ⟨hq, hb⟩ := hfirst
        subst hq
        rw [getOrBuildProvider, ← hb]
        dsimp only
        rw [lookupA_insertA_self]

/-- C10 witness inputs: an anthropic provider; the first requesting model
has the thinking flag set, the second does not. -/
def c10PCEx : ProviderConfig := { ID := "anthropic", «Type» := "anthropic", APIKey := "sk" }

/-- C10 witness builder. -/
def c10BuilderEx : Builder := NewBuilder { Providers := [("anthropic", c10PCEx)] }

/-- The builder state after the C10 witness's first build. -/
def c10B1Ex : Builder :=
  { c10BuilderEx with
    cache := [("anthropic",
      .anthropicP "" "sk" [("anthropic-beta", "interleaved-thinking-2025-05-14")])] }

/-- C10 witness: the handle built for the thinking model (carrying the
`anthropic-beta` header) is returned unchanged for the non-thinking model. -/
theorem c10_provider_cache_witness :
    getOrBuildProvider c10BuilderEx c10PCEx
        { Model := "claude-opus-4", Provider := "anthropic", Think := true } =
      .ok (.anthropicP "" "sk" [("anthropic-beta", "interleaved-thinking-2025-05-14")], c10B1Ex) ∧
    getOrBuildProvider c10B1Ex c10PCEx
        { Model := "claude-haiku", Provider := "anthropic", Think := false } =
      .ok (.anthropicP "" "sk" [("anthropic-beta", "interleaved-thinking-2025-05-14")], c10B1Ex) :=
  ⟨rfl,
   (c10_provider_cache c10BuilderEx c10PCEx).2
     { Model := "claude-opus-4", Provider := "anthropic", Think := true }
     { Model := "claude-haiku", Provider := "anthropic", Think := false }
     _ c10B1Ex rfl⟩

end MatrixCli
